import Mathlib

/-!
Shallow embedding of the workzen-server chat/presence core.

Sources embedded:
- the chat controller (src/unnamed/part_005, second document: createDirectChat,
  getMessages, sendMessage, markMessagesAsRead, deleteMessage, addReaction,
  removeReaction, editMessage, searchMessages, replyToMessage);
- the Chat/Message mongoose schema and its methods (src/models/Chat.js:
  getUnreadCount, resetUnreadCount, findDirectChat);
- the socket layer (src/unnamed/part_000: the sendMessage handler, the
  presence registry `userSockets`, getUserStatus, getPresence).

ObjectIds are modelled as naturals, timestamps as naturals, mongoose
subdocument arrays as lists.  Fallible HTTP handlers become functions into
`Except ChatError _`, where the error constructor mirrors the HTTP status the
handler returns (403 = forbidden, 404 = notFound, 400 = validationError).
-/

deriving instance DecidableEq for Except

namespace WorkZen

abbrev UserId := Nat

/-- Attachment subdocument of a message (models/Chat.js MessageSchema.attachments). -/
structure Attachment where
  fileName : String
  fileType : String
  fileUrl : String
  fileSize : Nat
deriving DecidableEq

/-- Reaction subdocument: one user, one emoji (models/Chat.js MessageSchema.reactions). -/
structure Reaction where
  user : UserId
  emoji : String
deriving DecidableEq

/-- Entry of `readBy` / `deliveredTo`: a user id together with a timestamp. -/
structure Receipt where
  user : UserId
  stamp : Nat
deriving DecidableEq

/-- Message subdocument (models/Chat.js MessageSchema).  `msgId` models the
mongoose subdocument `_id`, `createdAt` the timestamps option. -/
structure Message where
  msgId : Nat
  sender : UserId
  content : String
  attachments : List Attachment
  reactions : List Reaction
  readBy : List Receipt
  deliveredTo : List Receipt
  isDeleted : Bool
  deletedFor : List UserId
  replyTo : Option Nat
  edited : Bool
  editHistory : List (String × Nat)
  createdAt : Nat
deriving DecidableEq

/-- Chat kind: the `type` field with enum ['direct', 'group']. -/
inductive ChatKind
  | direct
  | group
deriving DecidableEq

/-- Per-user unread counter entry (models/Chat.js ChatSchema.unreadCounts). -/
structure UnreadEntry where
  user : UserId
  count : Nat
deriving DecidableEq

/-- Chat document (models/Chat.js ChatSchema), with the fields the verified
operations touch. -/
structure Chat where
  chatId : Nat
  kind : ChatKind
  participants : List UserId
  messages : List Message
  unreadCounts : List UnreadEntry
  admins : List UserId
  name : String
deriving DecidableEq

/-- Error outcomes of the chat HTTP handlers: 403, 404, 400. -/
inductive ChatError
  | forbidden
  | notFound
  | validationError
deriving DecidableEq

/-- Users listed in a message's `readBy` set. -/
def readByUsers (m : Message) : List UserId :=
  m.readBy.map (fun r => r.user)

/-- Users listed in a message's `deliveredTo` set. -/
def deliveredUsers (m : Message) : List UserId :=
  m.deliveredTo.map (fun r => r.user)

/-- Unread count of user `p` in an unreadCounts list: the count of the first
entry whose user matches, else 0 (ChatSchema.methods.getUnreadCount). -/
def unreadOf (p : UserId) (l : List UnreadEntry) : Nat :=
  match l.find? (fun e => e.user == p) with
  | some e => e.count
  | none => 0

/-- ChatSchema.methods.getUnreadCount lifted to a chat. -/
def Chat.getUnreadCount (c : Chat) (p : UserId) : Nat :=
  unreadOf p c.unreadCounts

/-- ChatSchema.methods.resetUnreadCount: zero the first entry for `u`, or
append a fresh `{ user: u, count: 0 }` entry when none exists. -/
def resetUnreadList (u : UserId) : List UnreadEntry → List UnreadEntry
  | [] => [⟨u, 0⟩]
  | e :: es => if e.user == u then ⟨e.user, 0⟩ :: es else e :: resetUnreadList u es

/-- ChatSchema.methods.resetUnreadCount lifted to a chat. -/
def Chat.resetUnread (c : Chat) (u : UserId) : Chat :=
  { c with unreadCounts := resetUnreadList u c.unreadCounts }

/-- Increment of every non-sender unread counter performed by sendMessage and
replyToMessage (`chat.unreadCounts.forEach(item => { if (item.user !== userId) item.count += 1 })`). -/
def incUnread (u : UserId) : List UnreadEntry → List UnreadEntry
  | [] => []
  | e :: es => (if e.user == u then e else ⟨e.user, e.count + 1⟩) :: incUnread u es

/-- Lookup of a message subdocument by id (`chat.messages.id(messageId)`). -/
def findMsg (c : Chat) (mid : Nat) : Option Message :=
  c.messages.find? (fun m => m.msgId == mid)

/-- In-place mutation of the subdocument returned by `chat.messages.id(...)`:
rewrite the first message with the given id, leave the rest untouched. -/
def updateMsg (mid : Nat) (f : Message → Message) : List Message → List Message
  | [] => []
  | m :: ms => if m.msgId == mid then f m :: ms else m :: updateMsg mid f ms

/-- The message object built by sendMessage: sender auto-added to `readBy`
and `deliveredTo`, attachments from the uploaded files. -/
def newMessage (u : UserId) (content : String) (files : List Attachment)
    (now nid : Nat) : Message :=
  { msgId := nid, sender := u, content := content, attachments := files,
    reactions := [], readBy := [⟨u, now⟩], deliveredTo := [⟨u, now⟩],
    isDeleted := false, deletedFor := [], replyTo := none, edited := false,
    editHistory := [], createdAt := now }

/-- chat.controller sendMessage: 400 without content and files, 403 for a
non-participant, otherwise append the message and bump every other
participant's unread counter. -/
def sendMessage (u : UserId) (content : String) (files : List Attachment)
    (now nid : Nat) (c : Chat) : Except ChatError Chat :=
  if content == "" && files.isEmpty then .error .validationError
  else if !(c.participants.contains u) then .error .forbidden
  else .ok { c with
    messages := c.messages ++ [newMessage u content files now nid],
    unreadCounts := incUnread u c.unreadCounts }

/-- Message visibility filter used by getMessages:
`!msg.deletedFor.includes(userId)`. -/
def visibleTo (u : UserId) (m : Message) : Bool :=
  !(m.deletedFor.contains u)

/-- Descending insertion by creation time, realising
`.sort((a, b) => b.createdAt - a.createdAt)`. -/
def insertByCreated (m : Message) : List Message → List Message
  | [] => [m]
  | x :: xs => if x.createdAt ≤ m.createdAt then m :: x :: xs else x :: insertByCreated m xs

/-- Sort of a message list newest-first, as getMessages does before paging. -/
def sortByCreatedDesc : List Message → List Message
  | [] => []
  | m :: ms => insertByCreated m (sortByCreatedDesc ms)

/-- chat.controller getMessages: 403 for a non-participant; otherwise filter
out messages deleted for the requester, sort newest-first, slice the page,
return it oldest-first, and reset the requester's unread counter as a side
effect on the chat document. -/
def getMessages (u : UserId) (page limit : Nat) (c : Chat) :
    Except ChatError (List Message × Chat) :=
  if !(c.participants.contains u) then .error .forbidden
  else
    let filtered := c.messages.filter (visibleTo u)
    let pageMsgs := (((sortByCreatedDesc filtered).drop ((page - 1) * limit)).take limit).reverse
    .ok (pageMsgs, c.resetUnread u)

/-- Lower-casing of a string, character by character (String.toLowerCase). -/
def lowerStr (s : String) : String :=
  ⟨s.data.map Char.toLower⟩

/-- Whether `pat` occurs at the head of `l`. -/
def leadMatch : List Char → List Char → Bool
  | [], _ => true
  | _ :: _, [] => false
  | a :: as, b :: bs => a == b && leadMatch as bs

/-- Whether `pat` occurs contiguously anywhere in `l` (String.includes). -/
def hasSub (pat : List Char) : List Char → Bool
  | [] => pat.isEmpty
  | b :: bs => leadMatch pat (b :: bs) || hasSub pat bs

/-- The predicate used by searchMessages:
`msg.content.toLowerCase().includes(query.toLowerCase())`. -/
def contentMatches (q : String) (m : Message) : Bool :=
  hasSub (lowerStr q).data (lowerStr m.content).data

/-- chat.controller searchMessages: returns every message of the chat whose
content contains the query, with no participant check and no per-user
`deletedFor` filtering. -/
def searchMessages (q : String) (c : Chat) : List Message :=
  c.messages.filter (contentMatches q)

/-- Per-message read marking used by markMessagesAsRead: push the requester
onto `readBy` unless already present. -/
def markReadMsg (u : UserId) (now : Nat) (m : Message) : Message :=
  if m.readBy.any (fun r => r.user == u) then m
  else { m with readBy := m.readBy ++ [⟨u, now⟩] }

/-- chat.controller markMessagesAsRead: 403 for a non-participant; otherwise
reset the requester's unread counter and mark every message read by them. -/
def markMessagesAsRead (u : UserId) (now : Nat) (c : Chat) : Except ChatError Chat :=
  if !(c.participants.contains u) then .error .forbidden
  else .ok { c with
    unreadCounts := resetUnreadList u c.unreadCounts,
    messages := c.messages.map (markReadMsg u now) }

/-- MongoDB $addToSet on a receipt array: append unless an identical element
(same user AND same timestamp) is already present. -/
def addToSetReceipt (r : Receipt) (l : List Receipt) : List Receipt :=
  if l.contains r then l else l ++ [r]

/-- Per-message effect of the socket messageRead handler
(src/unnamed/part_000 lines 188-225): `$addToSet` of `{ userId, readAt: new Date() }`
into `readBy`.  The payload carries a fresh timestamp on every call (and a
key that does not match the schema's `user` field, plus an auto-generated
subdocument id), so it never equals a stored entry and is appended each
time; the handler's subsequent per-user counter decrement reads a
nonexistent `unreadCount` field and dies in the catch, leaving this write as
the handler's only durable effect. -/
def socketReadMsg (u : UserId) (now : Nat) (m : Message) : Message :=
  { m with readBy := addToSetReceipt ⟨u, now⟩ m.readBy }

/-- The socket messageRead handler's durable effect on the chat document. -/
def socketMessageRead (u : UserId) (now : Nat) (mid : Nat) (c : Chat) : Chat :=
  { c with messages := updateMsg mid (socketReadMsg u now) c.messages }

/-- The tombstone write of delete-for-everyone: `isDeleted = true`, content
replaced by the fixed placeholder, attachments discarded. -/
def tombstoneMsg (m : Message) : Message :=
  { m with isDeleted := true, content := "This message was deleted", attachments := [] }

/-- The delete-for-self write: add the requester to `deletedFor` unless
already present. -/
def deleteForMsg (u : UserId) (m : Message) : Message :=
  if m.deletedFor.contains u then m else { m with deletedFor := m.deletedFor ++ [u] }

/-- chat.controller deleteMessage: 404 when the message is absent; for
`forEveryone` only the sender may proceed (403 otherwise) and the message is
tombstoned; otherwise the requester is added to `deletedFor` with no
participant check. -/
def deleteMessage (u : UserId) (mid : Nat) (forEveryone : Bool) (c : Chat) :
    Except ChatError Chat :=
  match findMsg c mid with
  | none => .error .notFound
  | some m =>
    if forEveryone && !(m.sender == u) then .error .forbidden
    else if forEveryone then
      .ok { c with messages := updateMsg mid tombstoneMsg c.messages }
    else
      .ok { c with messages := updateMsg mid (deleteForMsg u) c.messages }

/-- A reaction-list mutation: addReaction first filters out every reaction by
the acting user and then pushes the new one; removeReaction only filters. -/
inductive ReactOp
  | add (u : UserId) (emoji : String)
  | remove (u : UserId)
deriving DecidableEq

/-- Effect of one reaction operation on a message's reaction list, exactly as
the controller mutates `message.reactions`. -/
def applyReactOp (op : ReactOp) (l : List Reaction) : List Reaction :=
  match op with
  | .add u e => (l.filter (fun r => !(r.user == u))) ++ [⟨u, e⟩]
  | .remove u => l.filter (fun r => !(r.user == u))

/-- Effect of a sequence of reaction operations, applied left to right. -/
def applyReactOps (ops : List ReactOp) (l : List Reaction) : List Reaction :=
  ops.foldl (fun acc op => applyReactOp op acc) l

/-- Message-level effect of addReaction. -/
def addReactMsg (u : UserId) (e : String) (m : Message) : Message :=
  { m with reactions := applyReactOp (.add u e) m.reactions }

/-- Message-level effect of removeReaction. -/
def removeReactMsg (u : UserId) (m : Message) : Message :=
  { m with reactions := applyReactOp (.remove u) m.reactions }

/-- chat.controller addReaction: 400 without an emoji, 403 for a
non-participant, 404 when the message is absent, else replace the user's
reaction by the new one. -/
def addReaction (u : UserId) (mid : Nat) (e : String) (c : Chat) : Except ChatError Chat :=
  if e == "" then .error .validationError
  else if !(c.participants.contains u) then .error .forbidden
  else match findMsg c mid with
    | none => .error .notFound
    | some _ => .ok { c with messages := updateMsg mid (addReactMsg u e) c.messages }

/-- chat.controller removeReaction: 404 when the message is absent, else drop
the user's reaction — the handler performs no participant check. -/
def removeReaction (u : UserId) (mid : Nat) (c : Chat) : Except ChatError Chat :=
  match findMsg c mid with
  | none => .error .notFound
  | some _ => .ok { c with messages := updateMsg mid (removeReactMsg u) c.messages }

/-- Message-level effect of editMessage: old content is appended to the edit
history, the new content installed, and the edited flag set. -/
def editMsg (newContent : String) (now : Nat) (m : Message) : Message :=
  { m with
      editHistory := m.editHistory ++ [(m.content, now)],
      content := newContent,
      edited := true }

/-- chat.controller editMessage: 403 when the message is absent or the
requester is not its sender, else apply the edit. -/
def editMessage (u : UserId) (mid : Nat) (newContent : String) (now : Nat)
    (c : Chat) : Except ChatError Chat :=
  match findMsg c mid with
  | none => .error .forbidden
  | some m =>
    if !(m.sender == u) then .error .forbidden
    else .ok { c with messages := updateMsg mid (editMsg newContent now) c.messages }

/-- Whitespace trim from both ends, character-list based (String.trim as used
by replyToMessage's emptiness check). -/
def trimStr (s : String) : String :=
  ⟨((s.data.dropWhile Char.isWhitespace).reverse.dropWhile Char.isWhitespace).reverse⟩

/-- The reply message object built by replyToMessage (same as sendMessage's
but with `replyTo` set and no attachments). -/
def replyMessage (u : UserId) (content : String) (mid : Nat) (now nid : Nat) : Message :=
  { msgId := nid, sender := u, content := content, attachments := [],
    reactions := [], readBy := [⟨u, now⟩], deliveredTo := [⟨u, now⟩],
    isDeleted := false, deletedFor := [], replyTo := some mid, edited := false,
    editHistory := [], createdAt := now }

/-- chat.controller replyToMessage: 400 for blank content, 404 when the
referenced message is absent; the handler performs no participant check and
otherwise behaves like sendMessage with `replyTo` set. -/
def replyToMessage (u : UserId) (mid : Nat) (content : String) (now nid : Nat)
    (c : Chat) : Except ChatError Chat :=
  if trimStr content == "" then .error .validationError
  else match findMsg c mid with
    | none => .error .notFound
    | some _ => .ok { c with
        messages := c.messages ++ [replyMessage u content mid now nid],
        unreadCounts := incUnread u c.unreadCounts }

/-- A user record as far as createDirectChat consults the user store: the id
and the owning company. -/
structure UserRec where
  uid : UserId
  company : Nat
deriving DecidableEq

/-- The query condition of ChatSchema.statics.findDirectChat:
`{ type: 'direct', participants: { $all: [u, t], $size: 2 } }`. -/
def pairMatchProp (u t : UserId) (c : Chat) : Prop :=
  c.kind = .direct ∧ u ∈ c.participants ∧ t ∈ c.participants ∧ c.participants.length = 2

instance (u t : UserId) (c : Chat) : Decidable (pairMatchProp u t c) := by
  unfold pairMatchProp
  infer_instance

/-- ChatSchema.statics.findDirectChat over a chat store. -/
def findDirectChat (u t : UserId) (store : List Chat) : Option Chat :=
  store.find? (fun c => decide (pairMatchProp u t c))

/-- The chat document built by createDirectChat for a new pair. -/
def mkDirectChat (u t : UserId) (nid : Nat) : Chat :=
  { chatId := nid, kind := .direct, participants := [u, t], messages := [],
    unreadCounts := [⟨u, 0⟩, ⟨t, 0⟩], admins := [], name := "" }

/-- chat.controller createDirectChat: 404 unless both users exist, 403 across
companies, the existing chat when findDirectChat hits, else a fresh two-entry
direct chat appended to the store. -/
def createDirectChat (u t : UserId) (users : List UserRec) (nid : Nat)
    (store : List Chat) : Except ChatError (Chat × List Chat) :=
  match users.find? (fun r => r.uid == u), users.find? (fun r => r.uid == t) with
  | some cu, some tu =>
    if cu.company ≠ tu.company then .error .forbidden
    else match findDirectChat u t store with
      | some c => .ok (c, store)
      | none => .ok (mkDirectChat u t nid, store ++ [mkDirectChat u t nid])
  | _, _ => .error .notFound

/-- Presence status values. -/
inductive Presence
  | online
  | offline
deriving DecidableEq

/-- getUserStatus (src/unnamed/part_000): online iff the user has an entry in
the in-memory `userSockets` registry, modelled as the list of connected ids. -/
def getUserStatus (registry : List UserId) (u : UserId) : Presence :=
  if registry.contains u then .online else .offline

/-- The getPresence socket handler: answer for each queried id from the
in-memory registry alone. -/
def getPresence (registry : List UserId) (ids : List UserId) : List (UserId × Presence) :=
  ids.map (fun i => (i, getUserStatus registry i))

/-- A persisted Notification record, as far as the chat pipeline could touch
it (models/Notification.js: recipient and type). -/
structure Notif where
  user : UserId
  ntype : String
deriving DecidableEq

/-- Events the socket sendMessage handler emits. -/
inductive SockEvent
  | newMessage (dest : UserId) (chatId mid : Nat)
  | messageDelivered (dest : UserId) (mid : Nat) (deliveredTo : List UserId)
  | messageNotification (dest : UserId) (chatId mid : Nat)
deriving DecidableEq

/-- Recipient of a socket event. -/
def SockEvent.recipient : SockEvent → UserId
  | .newMessage d _ _ => d
  | .messageDelivered d _ _ => d
  | .messageNotification d _ _ => d

/-- The socket sendMessage handler (src/unnamed/part_000 lines 108-176):
marks the message delivered for currently-online participants, reports the
delivery to the sender, broadcasts to the chat room except the sender, and
emits a lightweight messageNotification to participants who are connected
but not joined to the room.  Offline participants receive nothing and the
handler writes only the chat document. -/
def socketSendMessage (sender : UserId) (mid : Nat) (registry roomMembers : List UserId)
    (now : Nat) (c : Chat) : Chat × List SockEvent :=
  let online := c.participants.filter (fun p => !(p == sender) && registry.contains p)
  let markDelivered := fun (m : Message) =>
    { m with
        deliveredTo := m.deliveredTo ++
          (online.filter (fun p => !(m.deliveredTo.any (fun r => r.user == p)))).map
            (fun p => (⟨p, now⟩ : Receipt)) }
  let c' :=
    if online.isEmpty then c
    else { c with messages := updateMsg mid markDelivered c.messages }
  let deliveredEvts :=
    if online.isEmpty then [] else [SockEvent.messageDelivered sender mid online]
  let roomEvts :=
    (roomMembers.filter (fun p => !(p == sender))).map
      (fun p => SockEvent.newMessage p c.chatId mid)
  let notifEvts :=
    (c.participants.filter
        (fun p => !(p == sender) && registry.contains p && !(roomMembers.contains p))).map
      (fun p => SockEvent.messageNotification p c.chatId mid)
  (c', deliveredEvts ++ roomEvts ++ notifEvts)

/-- Durable state the send pipeline can reach: the chat document and the
notification store. -/
structure ServerState where
  chat : Chat
  notifStore : List Notif
deriving DecidableEq

/-- The complete send path: the REST sendMessage controller persists the
message and unread counters, then the socket sendMessage handler performs
delivery marking and fan-out.  Neither step writes the notification store —
the chat path contains no call into the notification controller. -/
def sendPipeline (u : UserId) (content : String) (files : List Attachment)
    (now nid : Nat) (registry roomMembers : List UserId) (st : ServerState) :
    Except ChatError (ServerState × List SockEvent) :=
  match sendMessage u content files now nid st.chat with
  | .error e => .error e
  | .ok c₁ =>
    let out := socketSendMessage u nid registry roomMembers now c₁
    .ok ({ chat := out.1, notifStore := st.notifStore }, out.2)

/-- Messages carried by a successful handler result (empty on error). -/
def exMessages : Except ChatError Chat → List Message
  | .ok c => c.messages
  | .error _ => []

/-- Whether a handler result is a success. -/
def exIsOk : Except ChatError Chat → Bool
  | .ok _ => true
  | .error _ => false

/-- Notification store carried by a successful pipeline result. -/
def pipeNotifs : Except ChatError (ServerState × List SockEvent) → List Notif
  | .ok (st, _) => st.notifStore
  | .error _ => []

/-- Unread counter of a user in the chat carried by a successful pipeline
result (zero on error). -/
def pipeUnread (p : UserId) : Except ChatError (ServerState × List SockEvent) → Nat
  | .ok (st, _) => st.chat.getUnreadCount p
  | .error _ => 0

/-- Whether a pipeline result is a success. -/
def pipeIsOk : Except ChatError (ServerState × List SockEvent) → Bool
  | .ok _ => true
  | .error _ => false

/-- The acting user's reactions on a list, as a sublist. -/
def reactionsOf (u : UserId) (l : List Reaction) : List Reaction :=
  l.filter (fun r => r.user == u)

/-! Concrete instances used by the witness and counterexample theorems. -/

/-- A plain message from user 1, id 10, with an attachment. -/
def wMsg : Message :=
  { msgId := 10, sender := 1, content := "hello there", attachments := [⟨"a.txt", "text/plain", "uploads/a.txt", 3⟩],
    reactions := [], readBy := [⟨1, 5⟩], deliveredTo := [⟨1, 5⟩],
    isDeleted := false, deletedFor := [], replyTo := none, edited := false,
    editHistory := [], createdAt := 5 }

/-- A direct chat between users 1 and 2 holding `wMsg`. -/
def w3c : Chat :=
  { chatId := 3, kind := .direct, participants := [1, 2], messages := [wMsg],
    unreadCounts := [⟨1, 0⟩, ⟨2, 1⟩], admins := [], name := "" }

/-- Sample message content. -/
def wHi : String := "hi"

/-- A direct chat between users 1 and 2 with no messages yet and an existing
unread backlog for user 2. -/
def w6c : Chat :=
  { chatId := 6, kind := .direct, participants := [1, 2], messages := [],
    unreadCounts := [⟨1, 0⟩, ⟨2, 4⟩], admins := [], name := "" }

/-- `w6c` after user 1 sends `wHi`. -/
def w6c' : Chat :=
  { w6c with
      messages := [newMessage 1 wHi [] 6 11],
      unreadCounts := [⟨1, 0⟩, ⟨2, 5⟩] }

/-- A direct chat with unread backlogs for both users. -/
def w10c : Chat :=
  { chatId := 8, kind := .direct, participants := [1, 2], messages := [],
    unreadCounts := [⟨1, 3⟩, ⟨2, 2⟩], admins := [], name := "" }

/-- A chat holding `wMsg` with an existing reaction by user 2. -/
def w4c : Chat :=
  { chatId := 4, kind := .direct, participants := [1, 2],
    messages := [{ wMsg with reactions := [⟨2, "x"⟩, ⟨1, "y"⟩] }],
    unreadCounts := [⟨1, 0⟩, ⟨2, 0⟩], admins := [], name := "" }

/-- Sample emoji. -/
def wHeart : String := "heart"

/-- `w4c` after user 1 reacts with `wHeart`: user 1's previous reaction is
replaced, user 2's is untouched. -/
def w4c' : Chat :=
  { w4c with
      messages := [{ wMsg with reactions := [⟨2, "x"⟩, ⟨1, wHeart⟩] }] }

/-- Uniqueness invariant of direct chats: for each unordered pair of distinct
users, at most one direct chat of exactly that pair exists in the store. -/
def uniqueDirect (store : List Chat) : Prop :=
  ∀ a b : UserId, a ≠ b →
    (store.filter (fun c => decide (pairMatchProp a b c))).length ≤ 1

/-- A message from user 2 that user 1 has deleted for themselves. -/
def cx1m : Message :=
  { wMsg with sender := 2, deletedFor := [1] }

/-- A direct chat between 1 and 2 whose only message is deleted-for-self by
user 1. -/
def cx1c : Chat :=
  { chatId := 1, kind := .direct, participants := [1, 2], messages := [cx1m],
    unreadCounts := [⟨1, 1⟩, ⟨2, 0⟩], admins := [], name := "" }

/-- Search query whose lower-casing matches the content of `cx1m`. -/
def qHello : String := "Hello"

/-- A message from user 2 already read by both participants. -/
def w7m : Message :=
  { msgId := 10, sender := 2, content := "hey", attachments := [],
    reactions := [⟨2, "x"⟩], readBy := [⟨2, 4⟩, ⟨1, 5⟩], deliveredTo := [⟨2, 4⟩],
    isDeleted := false, deletedFor := [], replyTo := none, edited := false,
    editHistory := [], createdAt := 4 }

/-- A direct chat holding `w7m` with an unread backlog for user 1. -/
def w7c : Chat :=
  { chatId := 7, kind := .direct, participants := [1, 2], messages := [w7m],
    unreadCounts := [⟨1, 2⟩, ⟨2, 0⟩], admins := [], name := "" }

/-- `w7c` after user 1 marks everything read: only the counter moves, since
user 1 already appears in the message's readBy set. -/
def w7c' : Chat :=
  { w7c with unreadCounts := [⟨1, 0⟩, ⟨2, 0⟩] }

/-- Server state for the offline-recipient send scenario: `w6c` with an empty
notification store. -/
def w5st : ServerState :=
  { chat := w6c, notifStore := [] }

/-! Helper lemmas about the embedded operations. -/

theorem unreadOf_nil (p : UserId) : unreadOf p [] = 0 := rfl

theorem unreadOf_cons (p : UserId) (e : UnreadEntry) (es : List UnreadEntry) :
    unreadOf p (e :: es) = if e.user = p then e.count else unreadOf p es := by
  by_cases h : e.user = p
  · rw [if_pos h]
    unfold unreadOf
    rw [List.find?_cons_of_pos _ (by simp [h])]
  · rw [if_neg h]
    unfold unreadOf
    rw [List.find?_cons_of_neg _ (by simp [h])]

theorem resetUnreadList_cons (u : UserId) (e : UnreadEntry) (es : List UnreadEntry) :
    resetUnreadList u (e :: es) =
      if e.user = u then ⟨e.user, 0⟩ :: es else e :: resetUnreadList u es := by
  by_cases h : e.user = u <;> simp [resetUnreadList, h]

theorem unreadOf_resetUnreadList_self (u : UserId) (l : List UnreadEntry) :
    unreadOf u (resetUnreadList u l) = 0 := by
  induction l with
  | nil =>
    rw [show resetUnreadList u [] = [⟨u, 0⟩] from rfl, unreadOf_cons]
    simp
  | cons e es ih =>
    rw [resetUnreadList_cons]
    by_cases h : e.user = u
    · rw [if_pos h, unreadOf_cons]
      simp [h]
    · rw [if_neg h, unreadOf_cons, if_neg (by simpa using h)]
      exact ih

theorem unreadOf_resetUnreadList_ne (u p : UserId) (hp : p ≠ u) (l : List UnreadEntry) :
    unreadOf p (resetUnreadList u l) = unreadOf p l := by
  have hup : ¬ u = p := fun hh => hp hh.symm
  induction l with
  | nil =>
    rw [show resetUnreadList u [] = [⟨u, 0⟩] from rfl, unreadOf_cons]
    simp [hup, unreadOf_nil]
  | cons e es ih =>
    rw [resetUnreadList_cons]
    by_cases h : e.user = u
    · rw [if_pos h, unreadOf_cons, unreadOf_cons]
      simp only [h]
      rw [if_neg hup, if_neg hup]
    · rw [if_neg h, unreadOf_cons, unreadOf_cons]
      by_cases hep : e.user = p
      · rw [if_pos hep, if_pos hep]
      · rw [if_neg hep, if_neg hep]
        exact ih

theorem resetUnreadList_idem (u : UserId) (l : List UnreadEntry) :
    resetUnreadList u (resetUnreadList u l) = resetUnreadList u l := by
  induction l with
  | nil =>
    rw [show resetUnreadList u [] = [⟨u, 0⟩] from rfl, resetUnreadList_cons]
    simp
  | cons e es ih =>
    rw [resetUnreadList_cons]
    by_cases h : e.user = u
    · rw [if_pos h, resetUnreadList_cons, if_pos h]
    · rw [if_neg h, resetUnreadList_cons, if_neg h, ih]

theorem incUnread_cons (u : UserId) (e : UnreadEntry) (es : List UnreadEntry) :
    incUnread u (e :: es) =
      (if e.user = u then e else ⟨e.user, e.count + 1⟩) :: incUnread u es := by
  by_cases h : e.user = u <;> simp [incUnread, h]

theorem user_incHead (u : UserId) (e : UnreadEntry) :
    (if e.user = u then e else (⟨e.user, e.count + 1⟩ : UnreadEntry)).user = e.user := by
  by_cases h : e.user = u <;> simp [h]

theorem unreadOf_incUnread_self (u : UserId) (l : List UnreadEntry) :
    unreadOf u (incUnread u l) = unreadOf u l := by
  induction l with
  | nil => rfl
  | cons e es ih =>
    rw [incUnread_cons, unreadOf_cons, unreadOf_cons, user_incHead]
    by_cases h : e.user = u
    · rw [if_pos h, if_pos h, if_pos h]
    · rw [if_neg h, if_neg h]
      exact ih

theorem unreadOf_incUnread_ne (u p : UserId) (hp : p ≠ u) (l : List UnreadEntry)
    (he : ∃ e ∈ l, e.user = p) :
    unreadOf p (incUnread u l) = unreadOf p l + 1 := by
  induction l with
  | nil => simp at he
  | cons e es ih =>
    rw [incUnread_cons, unreadOf_cons, unreadOf_cons, user_incHead]
    by_cases h : e.user = p
    · have hu : ¬ e.user = u := by rw [h]; exact hp
      rw [if_pos h, if_pos h, if_neg hu]
    · have he' : ∃ x ∈ es, x.user = p := by
        rcases he with ⟨x, hx, hxp⟩
        rcases List.mem_cons.mp hx with rfl | hx'
        · exact absurd hxp h
        · exact ⟨x, hx', hxp⟩
      rw [if_neg h, if_neg h]
      exact ih he'

theorem find?_updateMsg (mid : Nat) (f : Message → Message)
    (hf : ∀ m, (f m).msgId = m.msgId) (l : List Message) :
    (updateMsg mid f l).find? (fun m => m.msgId == mid) =
      (l.find? (fun m => m.msgId == mid)).map f := by
  induction l with
  | nil => simp [updateMsg]
  | cons m ms ih =>
    by_cases h : m.msgId = mid
    · rw [show updateMsg mid f (m :: ms) = f m :: ms by simp [updateMsg, h]]
      rw [List.find?_cons_of_pos _ (by simp [hf, h]),
        List.find?_cons_of_pos _ (by simp [h])]
      rfl
    · rw [show updateMsg mid f (m :: ms) = m :: updateMsg mid f ms by simp [updateMsg, h]]
      rw [List.find?_cons_of_neg _ (by simp [h]),
        List.find?_cons_of_neg _ (by simp [h])]
      exact ih

theorem find?_map_msg (f : Message → Message) (hf : ∀ m, (f m).msgId = m.msgId)
    (mid : Nat) (l : List Message) :
    (l.map f).find? (fun m => m.msgId == mid) =
      (l.find? (fun m => m.msgId == mid)).map f := by
  induction l with
  | nil => simp
  | cons m ms ih =>
    by_cases h : m.msgId = mid
    · rw [List.map_cons, List.find?_cons_of_pos _ (by simp [hf, h]),
        List.find?_cons_of_pos _ (by simp [h])]
      rfl
    · rw [List.map_cons, List.find?_cons_of_neg _ (by simp [hf, h]),
        List.find?_cons_of_neg _ (by simp [h])]
      exact ih

theorem find?_append_some (p : Message → Bool) (l₁ l₂ : List Message) (m : Message)
    (h : l₁.find? p = some m) : (l₁ ++ l₂).find? p = some m := by
  induction l₁ with
  | nil => simp at h
  | cons x xs ih =>
    by_cases hx : p x = true
    · rw [List.find?_cons_of_pos _ hx] at h
      rw [List.cons_append, List.find?_cons_of_pos _ hx]
      exact h
    · rw [List.find?_cons_of_neg _ (by simpa using hx)] at h
      rw [List.cons_append, List.find?_cons_of_neg _ (by simpa using hx)]
      exact ih h

theorem mem_insertByCreated (a m : Message) (l : List Message) :
    a ∈ insertByCreated m l ↔ a = m ∨ a ∈ l := by
  induction l with
  | nil => simp [insertByCreated]
  | cons x xs ih =>
    by_cases h : x.createdAt ≤ m.createdAt
    · simp [insertByCreated, h]
    · simp [insertByCreated, h, ih]
      tauto

theorem mem_sortByCreatedDesc (a : Message) (l : List Message) :
    a ∈ sortByCreatedDesc l ↔ a ∈ l := by
  induction l with
  | nil => simp [sortByCreatedDesc]
  | cons m ms ih =>
    simp [sortByCreatedDesc, mem_insertByCreated, ih]

theorem markReadMsg_already (u : UserId) (now : Nat) (m : Message)
    (h : u ∈ readByUsers m) : markReadMsg u now m = m := by
  have : m.readBy.any (fun r => r.user == u) = true := by
    rcases List.mem_map.mp h with ⟨r, hr, hru⟩
    exact List.any_eq_true.mpr ⟨r, hr, by simp [hru]⟩
  simp [markReadMsg, this]

theorem mem_readByUsers_markReadMsg (u v : UserId) (now : Nat) (m : Message)
    (h : u ∈ readByUsers m) : u ∈ readByUsers (markReadMsg v now m) := by
  unfold markReadMsg
  split
  · exact h
  · simp only [readByUsers, List.map_append]
    exact List.mem_append_left _ h

theorem self_mem_readByUsers_markReadMsg (u : UserId) (now : Nat) (m : Message) :
    u ∈ readByUsers (markReadMsg u now m) := by
  by_cases hv : m.readBy.any (fun r => r.user == u) = true
  · rcases List.any_eq_true.mp hv with ⟨r, hr, hru⟩
    have hr' : r.user = u := by simpa using hru
    rw [markReadMsg_already u now m (List.mem_map.mpr ⟨r, hr, hr'⟩)]
    exact List.mem_map.mpr ⟨r, hr, hr'⟩
  · unfold markReadMsg
    rw [if_neg hv]
    simp [readByUsers]

theorem markReadMsg_idem (u : UserId) (n₁ n₂ : Nat) (m : Message) :
    markReadMsg u n₂ (markReadMsg u n₁ m) = markReadMsg u n₁ m :=
  markReadMsg_already u n₂ _ (self_mem_readByUsers_markReadMsg u n₁ m)

theorem msgId_markReadMsg (u : UserId) (now : Nat) (m : Message) :
    (markReadMsg u now m).msgId = m.msgId := by
  by_cases hv : m.readBy.any (fun r => r.user == u) = true <;> simp [markReadMsg, hv]

/-! Reaction-list lemmas. -/

theorem reactionsOf_applyReactOp_remove_self (u : UserId) (l : List Reaction) :
    reactionsOf u (applyReactOp (.remove u) l) = [] := by
  simp only [applyReactOp, reactionsOf, List.filter_filter]
  refine List.filter_eq_nil_iff.mpr ?_
  intro r _
  by_cases h : r.user = u <;> simp [h]

theorem reactionsOf_applyReactOp_add_self (u : UserId) (e : String) (l : List Reaction) :
    reactionsOf u (applyReactOp (.add u e) l) = [⟨u, e⟩] := by
  have h1 := reactionsOf_applyReactOp_remove_self u l
  simp only [applyReactOp, reactionsOf, List.filter_append] at *
  rw [h1]
  simp

theorem reactionsOf_filter_other (u v : UserId) (hv : v ≠ u) (l : List Reaction) :
    reactionsOf u (l.filter (fun r => !(r.user == v))) = reactionsOf u l := by
  simp only [reactionsOf, List.filter_filter]
  refine List.filter_congr ?_
  intro r _
  by_cases h : r.user = u
  · have hrv : ¬ r.user = v := by rw [h]; exact fun hh => hv hh.symm
    have huv : ¬ u = v := fun hh => hv hh.symm
    simp [h, hrv, huv]
  · simp [h]

theorem reactionsOf_applyReactOp_other (u v : UserId) (hv : v ≠ u) (e : String)
    (l : List Reaction) :
    reactionsOf u (applyReactOp (.add v e) l) = reactionsOf u l ∧
      reactionsOf u (applyReactOp (.remove v) l) = reactionsOf u l := by
  constructor
  · simp only [applyReactOp, reactionsOf, List.filter_append]
    have h2 : ([(⟨v, e⟩ : Reaction)].filter (fun r => r.user == u)) = [] := by
      simp [hv]
    simp only [reactionsOf] at *
    rw [h2, List.append_nil]
    exact reactionsOf_filter_other u v hv l
  · exact reactionsOf_filter_other u v hv l

theorem reactionsOf_applyReactOp_le_one (u : UserId) (op : ReactOp) (l : List Reaction)
    (h : (reactionsOf u l).length ≤ 1) :
    (reactionsOf u (applyReactOp op l)).length ≤ 1 := by
  cases op with
  | add v e =>
    by_cases hv : v = u
    · subst hv; rw [reactionsOf_applyReactOp_add_self]; simp
    · rw [(reactionsOf_applyReactOp_other u v hv e l).1]; exact h
  | remove v =>
    by_cases hv : v = u
    · subst hv; rw [reactionsOf_applyReactOp_remove_self]; simp
    · rw [(reactionsOf_applyReactOp_other u v hv "" l).2]; exact h

theorem reactionsOf_applyReactOps_le_one (u : UserId) (ops : List ReactOp)
    (l : List Reaction) (h : (reactionsOf u l).length ≤ 1) :
    (reactionsOf u (applyReactOps ops l)).length ≤ 1 := by
  induction ops generalizing l with
  | nil => exact h
  | cons op ops ih =>
    exact ih _ (reactionsOf_applyReactOp_le_one u op l h)

theorem contains_eq_true_iff (l : List UserId) (u : UserId) :
    l.contains u = true ↔ u ∈ l :=
  List.elem_iff

theorem not_mem_contains_eq_false (l : List UserId) (u : UserId) (h : u ∉ l) :
    l.contains u = false := by
  cases hb : l.contains u
  · rfl
  · exact absurd ((contains_eq_true_iff l u).mp hb) h

/-! Success-shape lemmas: what each handler's `.ok` result looks like. -/

theorem sendMessage_ok_shape (u : UserId) (content : String) (files : List Attachment)
    (now nid : Nat) (c c' : Chat) (h : sendMessage u content files now nid c = .ok c') :
    c' = { c with
            messages := c.messages ++ [newMessage u content files now nid],
            unreadCounts := incUnread u c.unreadCounts } ∧
    u ∈ c.participants := by
  unfold sendMessage at h
  split at h
  · cases h
  · split at h
    · cases h
    · rename_i hpart
      refine ⟨by injection h with hh; exact hh.symm, ?_⟩
      refine (contains_eq_true_iff _ _).mp ?_
      revert hpart
      cases hb : c.participants.contains u <;> simp [hb]

theorem markMessagesAsRead_ok_shape (u : UserId) (now : Nat) (c c' : Chat)
    (h : markMessagesAsRead u now c = .ok c') :
    c' = { c with
            unreadCounts := resetUnreadList u c.unreadCounts,
            messages := c.messages.map (markReadMsg u now) } ∧
    u ∈ c.participants := by
  unfold markMessagesAsRead at h
  split at h
  · cases h
  · rename_i hpart
    refine ⟨by injection h with hh; exact hh.symm, ?_⟩
    refine (contains_eq_true_iff _ _).mp ?_
    revert hpart
    cases hb : c.participants.contains u <;> simp [hb]

theorem getMessages_ok_shape (u : UserId) (page limit : Nat) (c c' : Chat)
    (msgs : List Message) (h : getMessages u page limit c = .ok (msgs, c')) :
    c' = c.resetUnread u ∧
    msgs = (((sortByCreatedDesc (c.messages.filter (visibleTo u))).drop
      ((page - 1) * limit)).take limit).reverse ∧
    u ∈ c.participants := by
  unfold getMessages at h
  split at h
  · cases h
  · rename_i hpart
    have hh : ((((sortByCreatedDesc (c.messages.filter (visibleTo u))).drop
        ((page - 1) * limit)).take limit).reverse, c.resetUnread u) = (msgs, c') := by
      injection h
    refine ⟨(congrArg Prod.snd hh).symm, (congrArg Prod.fst hh).symm, ?_⟩
    refine (contains_eq_true_iff _ _).mp ?_
    revert hpart
    cases hb : c.participants.contains u <;> simp [hb]

theorem editMessage_ok_shape (v : UserId) (mid : Nat) (e : String) (now : Nat)
    (c c₂ : Chat) (h : editMessage v mid e now c = .ok c₂) :
    ∃ m₁, findMsg c mid = some m₁ ∧ m₁.sender = v ∧
      c₂ = { c with messages := updateMsg mid (editMsg e now) c.messages } := by
  unfold editMessage at h
  split at h
  · cases h
  · rename_i m₁ heq
    split at h
    · cases h
    · rename_i hsend
      refine ⟨m₁, heq, ?_, by injection h with hh; exact hh.symm⟩
      revert hsend
      cases hb : m₁.sender == v
      · simp [hb]
      · intro _
        simpa using hb

theorem addReaction_ok_shape (u : UserId) (mid : Nat) (e : String) (c c₂ : Chat)
    (h : addReaction u mid e c = .ok c₂) :
    ∃ m₁, findMsg c mid = some m₁ ∧
      c₂ = { c with messages := updateMsg mid (addReactMsg u e) c.messages } ∧
      u ∈ c.participants := by
  unfold addReaction at h
  split at h
  · cases h
  · split at h
    · cases h
    · rename_i hpart
      split at h
      · cases h
      · rename_i m₁ heq
        refine ⟨m₁, heq, by injection h with hh; exact hh.symm, ?_⟩
        refine (contains_eq_true_iff _ _).mp ?_
        revert hpart
        cases hb : c.participants.contains u <;> simp [hb]

theorem removeReaction_ok_shape (u : UserId) (mid : Nat) (c c₂ : Chat)
    (h : removeReaction u mid c = .ok c₂) :
    ∃ m₁, findMsg c mid = some m₁ ∧
      c₂ = { c with messages := updateMsg mid (removeReactMsg u) c.messages } := by
  unfold removeReaction at h
  split at h
  · cases h
  · rename_i m₁ heq
    exact ⟨m₁, heq, by injection h with hh; exact hh.symm⟩

theorem deleteMessage_true_ok_shape (u : UserId) (mid : Nat) (c c₂ : Chat)
    (h : deleteMessage u mid true c = .ok c₂) :
    ∃ m₁, findMsg c mid = some m₁ ∧ m₁.sender = u ∧
      c₂ = { c with messages := updateMsg mid tombstoneMsg c.messages } := by
  unfold deleteMessage at h
  split at h
  · cases h
  · rename_i m₁ heq
    split at h
    · cases h
    · rename_i hsend
      split at h
      · refine ⟨m₁, heq, ?_, by injection h with hh; exact hh.symm⟩
        revert hsend
        cases hb : m₁.sender == u
        · simp [hb]
        · intro _
          simpa using hb
      · rename_i hx
        exact absurd rfl hx

theorem deleteMessage_false_ok_shape (u : UserId) (mid : Nat) (c c₂ : Chat)
    (h : deleteMessage u mid false c = .ok c₂) :
    ∃ m₁, findMsg c mid = some m₁ ∧
      c₂ = { c with messages := updateMsg mid (deleteForMsg u) c.messages } := by
  unfold deleteMessage at h
  split at h
  · cases h
  · rename_i m₁ heq
    split at h
    · cases h
    · split at h
      · rename_i hx
        cases hx
      · exact ⟨m₁, heq, by injection h with hh; exact hh.symm⟩

theorem replyToMessage_ok_shape (u : UserId) (mid : Nat) (content : String)
    (now nid : Nat) (c c₂ : Chat) (h : replyToMessage u mid content now nid c = .ok c₂) :
    ∃ m₁, findMsg c mid = some m₁ ∧
      c₂ = { c with
              messages := c.messages ++ [replyMessage u content mid now nid],
              unreadCounts := incUnread u c.unreadCounts } := by
  unfold replyToMessage at h
  split at h
  · cases h
  · split at h
    · cases h
    · rename_i m₁ heq
      exact ⟨m₁, heq, by injection h with hh; exact hh.symm⟩

/-! Claim theorems. -/

/-- C9: the presence query answers, for each queried id, online iff that user
has an entry in the in-memory connection registry and offline otherwise, and
it covers exactly the queried ids; the answer is a function of the registry
alone, so no durable-store lookup is involved. -/
theorem c9_presence_query_from_registry (registry ids : List UserId) (u : UserId) :
    ((u, Presence.online) ∈ getPresence registry ids ↔ u ∈ ids ∧ u ∈ registry) ∧
    ((u, Presence.offline) ∈ getPresence registry ids ↔ u ∈ ids ∧ u ∉ registry) ∧
    (getPresence registry ids).map Prod.fst = ids := by
  have hmem : ∀ st : Presence, (u, st) ∈ getPresence registry ids ↔
      u ∈ ids ∧ st = getUserStatus registry u := by
    intro st
    constructor
    · intro h
      rcases List.mem_map.mp h with ⟨i, hi, heq⟩
      have h1 : i = u := congrArg Prod.fst heq
      have h2 : getUserStatus registry i = st := congrArg Prod.snd heq
      subst h1
      exact ⟨hi, h2.symm⟩
    · rintro ⟨hi, rfl⟩
      exact List.mem_map.mpr ⟨u, hi, rfl⟩
  refine ⟨?_, ?_, ?_⟩
  · rw [hmem]
    by_cases hr : u ∈ registry
    · simp [getUserStatus, contains_eq_true_iff, hr]
    · simp [getUserStatus, contains_eq_true_iff, hr]
  · rw [hmem]
    by_cases hr : u ∈ registry
    · simp [getUserStatus, contains_eq_true_iff, hr]
    · simp [getUserStatus, contains_eq_true_iff, hr]
  · simp [getPresence, List.map_map, Function.comp_def]

/-- C4: single-reaction-per-user invariant.  After any sequence of
addReaction/removeReaction mutations starting from the empty reaction list a
user has at most one reaction; an addReaction by the user leaves exactly one
reaction of theirs, carrying the new emoji, whatever the prior list; a
removeReaction leaves none; and on a successful chat-level addReaction the
stored message's reaction list contains exactly the user's new reaction. -/
theorem c4_single_reaction_invariant (ops : List ReactOp) (u : UserId) (e : String)
    (l : List Reaction) (c c' : Chat) (mid : Nat)
    (h : addReaction u mid e c = .ok c') :
    (reactionsOf u (applyReactOps ops [])).length ≤ 1 ∧
    reactionsOf u (applyReactOp (.add u e) l) = [⟨u, e⟩] ∧
    reactionsOf u (applyReactOp (.remove u) l) = [] ∧
    (∀ m', findMsg c' mid = some m' → reactionsOf u m'.reactions = [⟨u, e⟩]) := by
  refine ⟨reactionsOf_applyReactOps_le_one u ops [] (by simp [reactionsOf]),
    reactionsOf_applyReactOp_add_self u e l,
    reactionsOf_applyReactOp_remove_self u l, ?_⟩
  intro m' hm'
  unfold addReaction at h
  split at h
  · cases h
  · split at h
    · cases h
    · split at h
      · cases h
      · rename_i m heq
        have hc' : { c with messages := updateMsg mid (addReactMsg u e) c.messages } = c' := by
          injection h
        subst hc'
        have hm2 : (updateMsg mid (addReactMsg u e) c.messages).find?
            (fun m => m.msgId == mid) = some m' := hm'
        have heq2 : c.messages.find? (fun m => m.msgId == mid) = some m := heq
        rw [find?_updateMsg mid (addReactMsg u e) (fun _ => rfl), heq2] at hm2
        have hmm : addReactMsg u e m = m' := by injection hm2
        subst hmm
        exact reactionsOf_applyReactOp_add_self u e m.reactions

/-- Witness for C4 at a concrete chat: user 1 re-reacts on a message that
already carries one reaction of theirs and one of user 2's. -/
theorem c4_witness :
    (reactionsOf 1 (applyReactOps [.add 1 wHeart] [])).length ≤ 1 ∧
    reactionsOf 1 (applyReactOp (.add 1 wHeart) [⟨2, "x"⟩, ⟨1, "y"⟩]) = [⟨1, wHeart⟩] ∧
    reactionsOf 1 (applyReactOp (.remove 1) [⟨2, "x"⟩, ⟨1, "y"⟩]) = [] ∧
    reactionsOf 1 [⟨2, "x"⟩, ⟨1, wHeart⟩] = [⟨1, wHeart⟩] := by
  have h := c4_single_reaction_invariant [.add 1 wHeart] 1 wHeart [⟨2, "x"⟩, ⟨1, "y"⟩]
    w4c w4c' 10 (by decide)
  exact ⟨h.1, h.2.1, h.2.2.1,
    h.2.2.2 { wMsg with reactions := [⟨2, "x"⟩, ⟨1, wHeart⟩] } (by decide)⟩

/-- C10: a successful paginated getMessages call resets the requesting
participant's unread counter to zero as a side effect, leaves every other
user's counter unchanged, and does not alter the stored messages or the
participant list. -/
theorem c10_get_messages_resets_unread (c c' : Chat) (u : UserId) (page limit : Nat)
    (msgs : List Message) (h : getMessages u page limit c = .ok (msgs, c')) :
    c'.getUnreadCount u = 0 ∧
    (∀ p, p ≠ u → c'.getUnreadCount p = c.getUnreadCount p) ∧
    c'.messages = c.messages ∧
    c'.participants = c.participants := by
  unfold getMessages at h
  split at h
  · cases h
  · have hc' : c.resetUnread u = c' := by
      have := h
      injection this with h1
      injection h1 with h2 h3
    subst hc'
    refine ⟨?_, ?_, rfl, rfl⟩
    · exact unreadOf_resetUnreadList_self u c.unreadCounts
    · intro p hp
      exact unreadOf_resetUnreadList_ne u p hp c.unreadCounts

/-- Witness for C10: user 1 pages through `w10c`; user 2's counter stays. -/
theorem c10_witness :
    (w10c.resetUnread 1).getUnreadCount 1 = 0 ∧
    (w10c.resetUnread 1).getUnreadCount 2 = w10c.getUnreadCount 2 ∧
    (w10c.resetUnread 1).messages = w10c.messages ∧
    (w10c.resetUnread 1).participants = w10c.participants := by
  have h := c10_get_messages_resets_unread w10c (w10c.resetUnread 1) 1 1 50 [] (by decide)
  exact ⟨h.1, h.2.1 2 (by decide), h.2.2.1, h.2.2.2⟩

/-- C6: a successful send appends exactly the new message to the chat, the
sender is auto-marked as reader and deliveree of it, every other participant
with an unread entry gains exactly one unread, and the sender's counter is
unchanged. -/
theorem c6_created_transition (c c' : Chat) (u : UserId) (content : String)
    (files : List Attachment) (now nid : Nat)
    (hcov : ∀ p ∈ c.participants, ∃ e ∈ c.unreadCounts, e.user = p)
    (h : sendMessage u content files now nid c = .ok c') :
    c'.messages = c.messages ++ [newMessage u content files now nid] ∧
    (newMessage u content files now nid).sender = u ∧
    u ∈ readByUsers (newMessage u content files now nid) ∧
    u ∈ deliveredUsers (newMessage u content files now nid) ∧
    (∀ p ∈ c.participants, p ≠ u → c'.getUnreadCount p = c.getUnreadCount p + 1) ∧
    c'.getUnreadCount u = c.getUnreadCount u := by
  unfold sendMessage at h
  split at h
  · cases h
  · split at h
    · cases h
    · have hc' : { c with
          messages := c.messages ++ [newMessage u content files now nid],
          unreadCounts := incUnread u c.unreadCounts } = c' := by
        injection h
      subst hc'
      refine ⟨rfl, rfl, by simp [newMessage, readByUsers], by simp [newMessage, deliveredUsers],
        ?_, ?_⟩
      · intro p hpmem hp
        exact unreadOf_incUnread_ne u p hp c.unreadCounts (hcov p hpmem)
      · exact unreadOf_incUnread_self u c.unreadCounts

theorem map_markReadMsg_idem (u : UserId) (n₁ n₂ : Nat) (l : List Message) :
    (l.map (markReadMsg u n₁)).map (markReadMsg u n₂) = l.map (markReadMsg u n₁) := by
  rw [List.map_map]
  induction l with
  | nil => rfl
  | cons x xs ih =>
    simp only [List.map_cons, Function.comp_apply, markReadMsg_idem]
    rw [show List.map (markReadMsg u n₂ ∘ markReadMsg u n₁) xs
        = List.map (markReadMsg u n₁) xs from ih]

theorem markMessagesAsRead_idem (u : UserId) (now now2 : Nat) (c c' : Chat)
    (h : markMessagesAsRead u now c = .ok c') :
    markMessagesAsRead u now2 c' = .ok c' := by
  obtain ⟨hc', hpart⟩ := markMessagesAsRead_ok_shape u now c c' h
  subst hc'
  have hcont : c.participants.contains u = true := (contains_eq_true_iff _ _).mpr hpart
  have h1 := resetUnreadList_idem u c.unreadCounts
  have h2 := map_markReadMsg_idem u now now2 c.messages
  simp [markMessagesAsRead, hcont, h1, h2, hpart]

theorem find_in_update (mid : Nat) (f : Message → Message)
    (hf : ∀ m, (f m).msgId = m.msgId) (c : Chat) (m₁ : Message)
    (h : findMsg c mid = some m₁) :
    findMsg { c with messages := updateMsg mid f c.messages } mid = some (f m₁) := by
  show (updateMsg mid f c.messages).find? (fun m => m.msgId == mid) = some (f m₁)
  rw [find?_updateMsg mid f hf]
  rw [show c.messages.find? (fun m => m.msgId == mid) = some m₁ from h]
  rfl

theorem mem_readByUsers_socketReadMsg (u v : UserId) (now : Nat) (m : Message)
    (h : u ∈ readByUsers m) : u ∈ readByUsers (socketReadMsg v now m) := by
  unfold socketReadMsg addToSetReceipt
  split
  · exact h
  · simp only [readByUsers, List.map_append]
    exact List.mem_append_left _ h

/-- C7 counterexample: the socket messageRead handler's $addToSet payload
carries a fresh timestamp, so it never equals the stored readBy entry of a
user who already read the message; re-marking message 10 of `w7c` as read by
user 1 appends a second entry for user 1 and changes the chat state — the
per-message read path is not idempotent. -/
theorem c7_counterexample :
    1 ∈ readByUsers w7m ∧
    socketMessageRead 1 9 10 w7c =
      { w7c with messages := [{ w7m with readBy := w7m.readBy ++ [⟨1, 9⟩] }] } ∧
    socketMessageRead 1 9 10 w7c ≠ w7c := by
  decide

/-- C7 amended: re-marking via the bulk markMessagesAsRead is a no-op on a
message the user already read and re-running it returns the same chat
(idempotent); read receipts are monotonic — no message transform used by any
handler (bulk read marking, the socket per-message read, edit, reaction
add/remove, tombstoning, delete-for-self) removes a user from readBy, and at
the chat level every successful handler run keeps the user in the stored
message's readBy set.  (The socket per-message read handler itself is NOT a
no-op on re-read: it appends a fresh-stamped entry, see the
counterexample — it still never removes anyone.) -/
theorem c7_read_receipts_monotonic (u v : UserId) (now now2 nid : Nat) (e : String)
    (m : Message) (c c' : Chat) (mid : Nat)
    (hm : u ∈ readByUsers m)
    (hc : markMessagesAsRead u now c = .ok c') :
    markReadMsg u now2 m = m ∧
    markMessagesAsRead u now2 c' = .ok c' ∧
    u ∈ readByUsers (markReadMsg v now2 m) ∧
    u ∈ readByUsers (editMsg e now2 m) ∧
    u ∈ readByUsers (addReactMsg v e m) ∧
    u ∈ readByUsers (removeReactMsg v m) ∧
    u ∈ readByUsers (tombstoneMsg m) ∧
    u ∈ readByUsers (deleteForMsg v m) ∧
    u ∈ readByUsers (socketReadMsg v now2 m) ∧
    (∀ m₁ c₂, findMsg c mid = some m₁ → u ∈ readByUsers m₁ →
      (markMessagesAsRead v now2 c = .ok c₂ ∨
        editMessage v mid e now2 c = .ok c₂ ∨
        addReaction v mid e c = .ok c₂ ∨
        removeReaction v mid c = .ok c₂ ∨
        deleteMessage v mid true c = .ok c₂ ∨
        deleteMessage v mid false c = .ok c₂ ∨
        sendMessage v e [] now2 nid c = .ok c₂ ∨
        replyToMessage v mid e now2 nid c = .ok c₂) →
      (findMsg c₂ mid).isSome = true ∧
        ∀ m₂, findMsg c₂ mid = some m₂ → u ∈ readByUsers m₂) ∧
    (∀ m₁, findMsg c mid = some m₁ → u ∈ readByUsers m₁ →
      (findMsg (socketMessageRead v now2 mid c) mid).isSome = true ∧
        ∀ m₂, findMsg (socketMessageRead v now2 mid c) mid = some m₂ →
          u ∈ readByUsers m₂) := by
  refine ⟨markReadMsg_already u now2 m hm,
    markMessagesAsRead_idem u now now2 c c' hc,
    mem_readByUsers_markReadMsg u v now2 m hm,
    hm, hm, hm, hm, ?_,
    mem_readByUsers_socketReadMsg u v now2 m hm, ?_, ?_⟩
  · unfold deleteForMsg
    split
    · exact hm
    · exact hm
  · intro m₁ c₂ hf₁ hm₁ hop
    rcases hop with hop | hop | hop | hop | hop | hop | hop | hop
    · obtain ⟨hc₂, -⟩ := markMessagesAsRead_ok_shape v now2 c c₂ hop
      subst hc₂
      have hfind : findMsg { c with
          unreadCounts := resetUnreadList v c.unreadCounts,
          messages := c.messages.map (markReadMsg v now2) } mid
          = some (markReadMsg v now2 m₁) := by
        show (c.messages.map (markReadMsg v now2)).find? (fun m => m.msgId == mid)
            = some (markReadMsg v now2 m₁)
        rw [find?_map_msg (markReadMsg v now2) (msgId_markReadMsg v now2) mid]
        rw [show c.messages.find? (fun m => m.msgId == mid) = some m₁ from hf₁]
        rfl
      refine ⟨by rw [hfind]; rfl, ?_⟩
      intro m₂ h2
      rw [hfind] at h2
      have hmm : markReadMsg v now2 m₁ = m₂ := by injection h2
      subst hmm
      exact mem_readByUsers_markReadMsg u v now2 m₁ hm₁
    · obtain ⟨m₁', heq, -, hc₂⟩ := editMessage_ok_shape v mid e now2 c c₂ hop
      rw [hf₁] at heq
      have hmm : m₁ = m₁' := by injection heq
      subst hmm
      subst hc₂
      have hfind := find_in_update mid (editMsg e now2) (fun _ => rfl) c m₁ hf₁
      refine ⟨by rw [hfind]; rfl, ?_⟩
      intro m₂ h2
      rw [hfind] at h2
      have hmm : editMsg e now2 m₁ = m₂ := by injection h2
      subst hmm
      exact hm₁
    · obtain ⟨m₁', heq, hc₂, -⟩ := addReaction_ok_shape v mid e c c₂ hop
      rw [hf₁] at heq
      have hmm : m₁ = m₁' := by injection heq
      subst hmm
      subst hc₂
      have hfind := find_in_update mid (addReactMsg v e) (fun _ => rfl) c m₁ hf₁
      refine ⟨by rw [hfind]; rfl, ?_⟩
      intro m₂ h2
      rw [hfind] at h2
      have hmm : addReactMsg v e m₁ = m₂ := by injection h2
      subst hmm
      exact hm₁
    · obtain ⟨m₁', heq, hc₂⟩ := removeReaction_ok_shape v mid c c₂ hop
      rw [hf₁] at heq
      have hmm : m₁ = m₁' := by injection heq
      subst hmm
      subst hc₂
      have hfind := find_in_update mid (removeReactMsg v) (fun _ => rfl) c m₁ hf₁
      refine ⟨by rw [hfind]; rfl, ?_⟩
      intro m₂ h2
      rw [hfind] at h2
      have hmm : removeReactMsg v m₁ = m₂ := by injection h2
      subst hmm
      exact hm₁
    · obtain ⟨m₁', heq, -, hc₂⟩ := deleteMessage_true_ok_shape v mid c c₂ hop
      rw [hf₁] at heq
      have hmm : m₁ = m₁' := by injection heq
      subst hmm
      subst hc₂
      have hfind := find_in_update mid tombstoneMsg (fun _ => rfl) c m₁ hf₁
      refine ⟨by rw [hfind]; rfl, ?_⟩
      intro m₂ h2
      rw [hfind] at h2
      have hmm : tombstoneMsg m₁ = m₂ := by injection h2
      subst hmm
      exact hm₁
    · obtain ⟨m₁', heq, hc₂⟩ := deleteMessage_false_ok_shape v mid c c₂ hop
      rw [hf₁] at heq
      have hmm : m₁ = m₁' := by injection heq
      subst hmm
      subst hc₂
      have hfind := find_in_update mid (deleteForMsg v) (fun m => by
        unfold deleteForMsg
        split
        · rfl
        · rfl) c m₁ hf₁
      refine ⟨by rw [hfind]; rfl, ?_⟩
      intro m₂ h2
      rw [hfind] at h2
      have hmm : deleteForMsg v m₁ = m₂ := by injection h2
      subst hmm
      unfold deleteForMsg
      split
      · exact hm₁
      · exact hm₁
    · obtain ⟨hc₂, -⟩ := sendMessage_ok_shape v e [] now2 nid c c₂ hop
      subst hc₂
      have hfind : findMsg { c with
          messages := c.messages ++ [newMessage v e [] now2 nid],
          unreadCounts := incUnread v c.unreadCounts } mid = some m₁ := by
        show (c.messages ++ [newMessage v e [] now2 nid]).find? (fun m => m.msgId == mid)
            = some m₁
        exact find?_append_some _ _ _ _ hf₁
      refine ⟨by rw [hfind]; rfl, ?_⟩
      intro m₂ h2
      rw [hfind] at h2
      have hmm : m₁ = m₂ := by injection h2
      subst hmm
      exact hm₁
    · obtain ⟨m₁', heq, hc₂⟩ := replyToMessage_ok_shape v mid e now2 nid c c₂ hop
      subst hc₂
      have hfind : findMsg { c with
          messages := c.messages ++ [replyMessage v e mid now2 nid],
          unreadCounts := incUnread v c.unreadCounts } mid = some m₁ := by
        show (c.messages ++ [replyMessage v e mid now2 nid]).find? (fun m => m.msgId == mid)
            = some m₁
        exact find?_append_some _ _ _ _ hf₁
      refine ⟨by rw [hfind]; rfl, ?_⟩
      intro m₂ h2
      rw [hfind] at h2
      have hmm : m₁ = m₂ := by injection h2
      subst hmm
      exact hm₁
  · intro m₁ hf₁ hm₁
    have hfind : findMsg (socketMessageRead v now2 mid c) mid
        = some (socketReadMsg v now2 m₁) :=
      find_in_update mid (socketReadMsg v now2) (fun _ => rfl) c m₁ hf₁
    refine ⟨by rw [hfind]; rfl, ?_⟩
    intro m₂ h2
    rw [hfind] at h2
    have hmm : socketReadMsg v now2 m₁ = m₂ := by injection h2
    subst hmm
    exact mem_readByUsers_socketReadMsg u v now2 m₁ hm₁

/-- Witness for C7 on `w7c`, where user 1 already appears in the readBy set
of message 10; user 2's bulk mark-as-read leaves the chat unchanged and user
1 stays in the readBy set. -/
theorem c7_witness :
    markReadMsg 1 9 w7m = w7m ∧
    markMessagesAsRead 1 9 w7c' = .ok w7c' ∧
    1 ∈ readByUsers (markReadMsg 2 9 w7m) ∧
    1 ∈ readByUsers (editMsg wHi 9 w7m) ∧
    1 ∈ readByUsers (addReactMsg 2 wHi w7m) ∧
    1 ∈ readByUsers (removeReactMsg 2 w7m) ∧
    1 ∈ readByUsers (tombstoneMsg w7m) ∧
    1 ∈ readByUsers (deleteForMsg 2 w7m) ∧
    1 ∈ readByUsers (socketReadMsg 2 9 w7m) ∧
    (findMsg w7c 10).isSome = true ∧
    1 ∈ readByUsers w7m ∧
    (findMsg (socketMessageRead 2 9 10 w7c) 10).isSome = true ∧
    1 ∈ readByUsers { w7m with readBy := w7m.readBy ++ [⟨2, 9⟩] } := by
  have h := c7_read_receipts_monotonic 1 2 7 9 11 wHi w7m w7c w7c' 10 (by decide) (by decide)
  have hinner := h.2.2.2.2.2.2.2.2.2.1 w7m w7c (by decide) (by decide) (Or.inl (by decide))
  have hsock := h.2.2.2.2.2.2.2.2.2.2 w7m (by decide) (by decide)
  exact ⟨h.1, h.2.1, h.2.2.1, h.2.2.2.1, h.2.2.2.2.1, h.2.2.2.2.2.1, h.2.2.2.2.2.2.1,
    h.2.2.2.2.2.2.2.1, h.2.2.2.2.2.2.2.2.1, hinner.1, hinner.2 w7m (by decide),
    hsock.1, hsock.2 { w7m with readBy := w7m.readBy ++ [⟨2, 9⟩] } (by decide)⟩

/-- Witness for C6: user 1 sends `wHi` into `w6c`; user 2 gains one unread. -/
theorem c6_witness :
    w6c'.messages = w6c.messages ++ [newMessage 1 wHi [] 6 11] ∧
    (newMessage 1 wHi [] 6 11).sender = 1 ∧
    1 ∈ readByUsers (newMessage 1 wHi [] 6 11) ∧
    1 ∈ deliveredUsers (newMessage 1 wHi [] 6 11) ∧
    w6c'.getUnreadCount 2 = w6c.getUnreadCount 2 + 1 ∧
    w6c'.getUnreadCount 1 = w6c.getUnreadCount 1 := by
  have h := c6_created_transition w6c w6c' 1 wHi [] 6 11 (by decide) (by decide)
  exact ⟨h.1, h.2.1, h.2.2.1, h.2.2.2.1, h.2.2.2.2.1 2 (by decide) (by decide), h.2.2.2.2.2⟩

/-- C1 counterexample: searchMessages returns message `cx1m` on a matching
query even though requesting user 1 is in its deletedFor set (and the message
is not globally deleted), so not every listing/search operation filters by
deletedFor. -/
theorem c1_counterexample :
    searchMessages qHello cx1c = [cx1m] ∧
    (1 : UserId) ∈ cx1m.deletedFor ∧
    cx1m.isDeleted = false := by
  decide

/-- C1 amended: the paginated getMessages query excludes, for the requesting
user, every message whose deletedFor set contains them, independent of
isDeleted; the searchMessages operation applies no per-user deletedFor filter
and returns every content-matching message of the chat. -/
theorem c1_amended_get_filters_search_does_not (u : UserId) (page limit : Nat)
    (c c' : Chat) (msgs : List Message)
    (h : getMessages u page limit c = .ok (msgs, c')) :
    (∀ m ∈ msgs, u ∉ m.deletedFor) ∧
    (∀ q m, m ∈ c.messages → contentMatches q m = true → m ∈ searchMessages q c) := by
  obtain ⟨-, hmsgs, -⟩ := getMessages_ok_shape u page limit c c' msgs h
  constructor
  · intro m hmem
    rw [hmsgs] at hmem
    have h1 := List.mem_reverse.mp hmem
    have h2 := List.mem_of_mem_take h1
    have h3 := List.mem_of_mem_drop h2
    have h4 := (mem_sortByCreatedDesc m _).mp h3
    have h5 := List.mem_filter.mp h4
    have hvis : visibleTo u m = true := h5.2
    unfold visibleTo at hvis
    intro hdel
    rw [(contains_eq_true_iff _ _).mpr hdel] at hvis
    cases hvis
  · intro q m hm hmatch
    exact List.mem_filter.mpr ⟨hm, hmatch⟩

/-- Witness for the amended C1: user 2 is not in `cx1m.deletedFor`, so paging
keeps the message, while search also returns it. -/
theorem c1_witness :
    (2 : UserId) ∉ cx1m.deletedFor ∧ cx1m ∈ searchMessages qHello cx1c := by
  have h := c1_amended_get_filters_search_does_not 2 1 50 cx1c
    (cx1c.resetUnread 2) [cx1m] (by decide)
  exact ⟨h.1 cx1m (by decide), h.2 qHello cx1m (by decide) (by decide)⟩

/-- C2 counterexample: user 99 is not a participant of `w3c`, yet
replyToMessage does not fail with Forbidden — it succeeds and appends the
reply, changing the chat state. -/
theorem c2_counterexample :
    (99 : UserId) ∉ w3c.participants ∧
    replyToMessage 99 10 wHi 6 11 w3c ≠ .error .forbidden ∧
    (exMessages (replyToMessage 99 10 wHi 6 11 w3c)).length = w3c.messages.length + 1 := by
  decide

/-- C2 amended: sendMessage, addReaction and markMessagesAsRead reject a
non-participant with Forbidden and no state change, and editMessage and
delete-for-everyone reject any non-sender (their only check) with Forbidden;
but removeReaction, replyToMessage and delete-for-self perform no
participant check: for a non-participant they succeed whenever the message
exists — replyToMessage appends the reply and bumps the other participants'
unread counters, delete-for-self records the non-participant in the
message's deletedFor set. -/
theorem c2_amended_participant_checks (c : Chat) (u : UserId) (content e : String)
    (files : List Attachment) (now nid mid : Nat)
    (hnp : u ∉ c.participants)
    (hcf : ¬(content = "" ∧ files = []))
    (he : e ≠ "")
    (htrim : ¬ trimStr content = "") :
    sendMessage u content files now nid c = .error .forbidden ∧
    addReaction u mid e c = .error .forbidden ∧
    markMessagesAsRead u now c = .error .forbidden ∧
    (∀ m, findMsg c mid = some m → removeReaction u mid c =
      .ok { c with messages := updateMsg mid (removeReactMsg u) c.messages }) ∧
    (∀ m, findMsg c mid = some m → replyToMessage u mid content now nid c =
      .ok { c with
              messages := c.messages ++ [replyMessage u content mid now nid],
              unreadCounts := incUnread u c.unreadCounts }) ∧
    (∀ m, findMsg c mid = some m → deleteMessage u mid false c =
      .ok { c with messages := updateMsg mid (deleteForMsg u) c.messages }) ∧
    (∀ m, findMsg c mid = some m → m.sender ≠ u →
      editMessage u mid content now c = .error .forbidden) ∧
    (∀ m, findMsg c mid = some m → m.sender ≠ u →
      deleteMessage u mid true c = .error .forbidden) := by
  have hnc : c.participants.contains u = false := not_mem_contains_eq_false _ _ hnp
  have hval : (content == "" && files.isEmpty) = false := by
    by_cases h1 : content = ""
    · have h2 : files ≠ [] := fun hh => hcf ⟨h1, hh⟩
      simp [h1, h2]
    · simp [h1]
  refine ⟨?_, ?_, ?_, ?_, ?_, ?_, ?_, ?_⟩
  · unfold sendMessage
    rw [hval, hnc]
    rfl
  · unfold addReaction
    rw [show (e == "") = false by simpa using he, hnc]
    rfl
  · unfold markMessagesAsRead
    rw [hnc]
    rfl
  · intro m hm
    unfold removeReaction
    rw [hm]
  · intro m hm
    unfold replyToMessage
    rw [show (trimStr content == "") = false by simpa using htrim, hm]
    rfl
  · intro m hm
    unfold deleteMessage
    rw [hm]
    rfl
  · intro m hm hsne
    unfold editMessage
    rw [hm]
    dsimp only
    rw [show (m.sender == u) = false by simpa using hsne]
    rfl
  · intro m hm hsne
    unfold deleteMessage
    rw [hm]
    dsimp only
    rw [show (m.sender == u) = false by simpa using hsne]
    rfl

/-- Witness for the amended C2 at user 99 against `w3c`: the three
participant-checked handlers reject, edit and delete-for-everyone reject the
non-sender, while removeReaction, replyToMessage and delete-for-self go
through. -/
theorem c2_witness :
    sendMessage 99 wHi [] 6 11 w3c = .error .forbidden ∧
    addReaction 99 10 wHeart w3c = .error .forbidden ∧
    markMessagesAsRead 99 6 w3c = .error .forbidden ∧
    removeReaction 99 10 w3c =
      .ok { w3c with messages := updateMsg 10 (removeReactMsg 99) w3c.messages } ∧
    replyToMessage 99 10 wHi 6 11 w3c =
      .ok { w3c with
              messages := w3c.messages ++ [replyMessage 99 wHi 10 6 11],
              unreadCounts := incUnread 99 w3c.unreadCounts } ∧
    deleteMessage 99 10 false w3c =
      .ok { w3c with messages := updateMsg 10 (deleteForMsg 99) w3c.messages } ∧
    editMessage 99 10 wHi 6 w3c = .error .forbidden ∧
    deleteMessage 99 10 true w3c = .error .forbidden := by
  have h := c2_amended_participant_checks w3c 99 wHi wHeart [] 6 11 10
    (by decide) (by decide) (by decide) (by decide)
  exact ⟨h.1, h.2.1, h.2.2.1, h.2.2.2.1 wMsg (by decide), h.2.2.2.2.1 wMsg (by decide),
    h.2.2.2.2.2.1 wMsg (by decide), h.2.2.2.2.2.2.1 wMsg (by decide) (by decide),
    h.2.2.2.2.2.2.2 wMsg (by decide) (by decide)⟩

theorem socket_unreadCounts (sender mid : Nat) (registry roomMembers : List UserId)
    (now : Nat) (c : Chat) :
    (socketSendMessage sender mid registry roomMembers now c).1.unreadCounts
      = c.unreadCounts := by
  unfold socketSendMessage
  dsimp only
  split
  · rfl
  · rfl

theorem socket_notifless_recipients (sender mid : Nat)
    (registry roomMembers : List UserId) (now : Nat) (c : Chat) :
    ∀ ev ∈ (socketSendMessage sender mid registry roomMembers now c).2,
      ev.recipient = sender ∨ ev.recipient ∈ roomMembers ∨ ev.recipient ∈ registry := by
  intro ev hev
  unfold socketSendMessage at hev
  dsimp only at hev
  rcases List.mem_append.mp hev with h1 | h2
  · rcases List.mem_append.mp h1 with ha | hb
    · split at ha
      · cases ha
      · rcases List.mem_singleton.mp ha with rfl
        exact Or.inl rfl
    · rcases List.mem_map.mp hb with ⟨p, hp, rfl⟩
      have hpm := (List.mem_filter.mp hp).1
      exact Or.inr (Or.inl hpm)
  · rcases List.mem_map.mp h2 with ⟨p, hp, rfl⟩
    have hcond := (List.mem_filter.mp hp).2
    have hreg : registry.contains p = true := by
      revert hcond
      cases hb : registry.contains p
      · simp [hb]
      · simp [hb]
    exact Or.inr (Or.inr ((contains_eq_true_iff _ _).mp hreg))

/-- C5 counterexample: user 1 sends while participant 2 is offline
(registry holds only user 1); the pipeline succeeds, user 2's unread counter
rises, but the notification store stays empty — no Notification record for
user 2 is persisted anywhere on the chat send path. -/
theorem c5_counterexample :
    pipeIsOk (sendPipeline 1 wHi [] 100 11 [1] [1] w5st) = true ∧
    pipeNotifs (sendPipeline 1 wHi [] 100 11 [1] [1] w5st) = [] ∧
    pipeUnread 2 (sendPipeline 1 wHi [] 100 11 [1] [1] w5st) = 5 := by
  decide

/-- C5 amended: when a participant b is offline (not in the registry, hence
not in the room), a successful send leaves the durable notification store
untouched, raises b's unread counter by exactly one (hence to at least 1),
and emits no real-time event addressed to b. -/
theorem c5_amended_offline_gets_unread_not_notification (u b : UserId)
    (content : String) (files : List Attachment) (now nid : Nat)
    (registry roomMembers : List UserId) (st st' : ServerState) (evts : List SockEvent)
    (hbne : b ≠ u)
    (hboff : b ∉ registry)
    (hbroom : b ∉ roomMembers)
    (hbent : ∃ e ∈ st.chat.unreadCounts, e.user = b)
    (h : sendPipeline u content files now nid registry roomMembers st = .ok (st', evts)) :
    st'.notifStore = st.notifStore ∧
    st'.chat.getUnreadCount b = st.chat.getUnreadCount b + 1 ∧
    1 ≤ st'.chat.getUnreadCount b ∧
    (∀ ev ∈ evts, ev.recipient ≠ b) := by
  unfold sendPipeline at h
  cases hs : sendMessage u content files now nid st.chat with
  | error e =>
    rw [hs] at h
    cases h
  | ok c₁ =>
    rw [hs] at h
    dsimp only at h
    have hp : (ServerState.mk (socketSendMessage u nid registry roomMembers now c₁).1
        st.notifStore, (socketSendMessage u nid registry roomMembers now c₁).2)
        = ((st', evts) : ServerState × List SockEvent) := by
      injection h
    have hst : ServerState.mk (socketSendMessage u nid registry roomMembers now c₁).1
        st.notifStore = st' := congrArg Prod.fst hp
    have hevts : (socketSendMessage u nid registry roomMembers now c₁).2 = evts :=
      congrArg Prod.snd hp
    obtain ⟨hc₁, -⟩ := sendMessage_ok_shape u content files now nid st.chat c₁ hs
    subst hst
    have hcounts : (socketSendMessage u nid registry roomMembers now c₁).1.unreadCounts
        = incUnread u st.chat.unreadCounts := by
      rw [socket_unreadCounts, hc₁]
    have hunread : (ServerState.mk (socketSendMessage u nid registry roomMembers now c₁).1
        st.notifStore).chat.getUnreadCount b = st.chat.getUnreadCount b + 1 := by
      show unreadOf b (socketSendMessage u nid registry roomMembers now c₁).1.unreadCounts
          = unreadOf b st.chat.unreadCounts + 1
      rw [hcounts]
      exact unreadOf_incUnread_ne u b hbne st.chat.unreadCounts hbent
    refine ⟨rfl, hunread, ?_, ?_⟩
    · rw [hunread]
      exact Nat.le_add_left 1 _
    · intro ev hev
      rw [← hevts] at hev
      rcases socket_notifless_recipients u nid registry roomMembers now c₁ ev hev with
        hr | hr | hr
      · rw [hr]
        exact fun hh => hbne hh.symm
      · exact fun hh => hbroom (hh ▸ hr)
      · exact fun hh => hboff (hh ▸ hr)

/-- Witness for the amended C5: the concrete offline scenario of the
counterexample, driven through the amended theorem. -/
theorem c5_witness :
    (ServerState.mk (socketSendMessage 1 11 [1] [1] 100
        { w6c with
            messages := w6c.messages ++ [newMessage 1 wHi [] 100 11],
            unreadCounts := incUnread 1 w6c.unreadCounts }).1 []).notifStore
      = w5st.notifStore ∧
    (ServerState.mk (socketSendMessage 1 11 [1] [1] 100
        { w6c with
            messages := w6c.messages ++ [newMessage 1 wHi [] 100 11],
            unreadCounts := incUnread 1 w6c.unreadCounts }).1 []).chat.getUnreadCount 2
      = w5st.chat.getUnreadCount 2 + 1 := by
  have h := c5_amended_offline_gets_unread_not_notification 1 2 wHi [] 100 11 [1] [1]
    w5st
    (ServerState.mk (socketSendMessage 1 11 [1] [1] 100
      { w6c with
          messages := w6c.messages ++ [newMessage 1 wHi [] 100 11],
          unreadCounts := incUnread 1 w6c.unreadCounts }).1 [])
    ((socketSendMessage 1 11 [1] [1] 100
      { w6c with
          messages := w6c.messages ++ [newMessage 1 wHi [] 100 11],
          unreadCounts := incUnread 1 w6c.unreadCounts }).2)
    (by decide) (by decide) (by decide) (by decide) (by decide)
  exact ⟨h.1, h.2.1⟩

theorem pairMatchProp_symm (a b : UserId) (c : Chat) :
    pairMatchProp a b c ↔ pairMatchProp b a c := by
  unfold pairMatchProp
  tauto

theorem findDirectChat_none (u t : UserId) (store : List Chat)
    (h : findDirectChat u t store = none) :
    ∀ c ∈ store, ¬ pairMatchProp u t c := by
  intro c hc
  have hfa := List.find?_eq_none.mp h c hc
  simpa using hfa

/-- C8 counterexample: createDirectChat accepts a request whose target is the
requester, creating a direct chat whose two participant entries are the same
user — not two distinct participants. -/
theorem c8_counterexample :
    createDirectChat 1 1 [⟨1, 5⟩] 99 [] =
      .ok (mkDirectChat 1 1 99, [mkDirectChat 1 1 99]) ∧
    (mkDirectChat 1 1 99).participants = [1, 1] ∧
    ¬ (mkDirectChat 1 1 99).participants.Nodup := by
  decide

/-- C8 amended: for two distinct users with valid same-company records,
creating a direct chat returns the existing chat unchanged when one exists,
otherwise appends a fresh chat with exactly two distinct participants; the
at-most-one-direct-chat-per-unordered-pair invariant is preserved.  (For a
degenerate self-request the created chat duplicates the single user, as the
counterexample shows.) -/
theorem c8_amended_direct_chat_unique (u t : UserId) (users : List UserRec)
    (nid : Nat) (store : List Chat) (cu tu : UserRec)
    (hut : u ≠ t)
    (hcu : users.find? (fun r => r.uid == u) = some cu)
    (htu : users.find? (fun r => r.uid == t) = some tu)
    (hcomp : cu.company = tu.company)
    (huniq : uniqueDirect store) :
    (∀ c, findDirectChat u t store = some c →
      createDirectChat u t users nid store = .ok (c, store)) ∧
    (findDirectChat u t store = none →
      createDirectChat u t users nid store =
        .ok (mkDirectChat u t nid, store ++ [mkDirectChat u t nid]) ∧
      (mkDirectChat u t nid).participants.length = 2 ∧
      (mkDirectChat u t nid).participants.Nodup) ∧
    (∀ c' store', createDirectChat u t users nid store = .ok (c', store') →
      uniqueDirect store') := by
  have hcd : createDirectChat u t users nid store =
      (match findDirectChat u t store with
        | some c => .ok (c, store)
        | none => .ok (mkDirectChat u t nid, store ++ [mkDirectChat u t nid])) := by
    unfold createDirectChat
    rw [hcu, htu]
    dsimp only
    rw [if_neg (fun hh => hh hcomp)]
  refine ⟨?_, ?_, ?_⟩
  · intro c hfc
    rw [hcd, hfc]
  · intro hfn
    rw [hcd, hfn]
    refine ⟨rfl, rfl, ?_⟩
    simp [mkDirectChat, hut]
  · intro c' store' hok
    rw [hcd] at hok
    cases hfc : findDirectChat u t store with
    | some c =>
      rw [hfc] at hok
      have hss : store = store' := by
        have hp : ((c, store) : Chat × List Chat) = (c', store') := by injection hok
        exact congrArg Prod.snd hp
      rw [← hss]
      exact huniq
    | none =>
      rw [hfc] at hok
      have hss : store ++ [mkDirectChat u t nid] = store' := by
        have hp : ((mkDirectChat u t nid, store ++ [mkDirectChat u t nid]) :
            Chat × List Chat) = (c', store') := by injection hok
        exact congrArg Prod.snd hp
      rw [← hss]
      intro a b hab
      rw [List.filter_append]
      by_cases hnew : pairMatchProp a b (mkDirectChat u t nid)
      · have hamem : a = u ∨ a = t := by
          have := hnew.2.1
          simpa [mkDirectChat] using this
        have hbmem : b = u ∨ b = t := by
          have := hnew.2.2.1
          simpa [mkDirectChat] using this
        have hcases : (a = u ∧ b = t) ∨ (a = t ∧ b = u) := by
          rcases hamem with ha | ha <;> rcases hbmem with hb | hb
          · exact absurd (ha.trans hb.symm) hab
          · exact Or.inl ⟨ha, hb⟩
          · exact Or.inr ⟨ha, hb⟩
          · exact absurd (ha.trans hb.symm) hab
        have hstorenil : store.filter (fun c => decide (pairMatchProp a b c)) = [] := by
          refine List.filter_eq_nil_iff.mpr ?_
          intro c hc
          have hnotut := findDirectChat_none u t store hfc c hc
          rcases hcases with ⟨rfl, rfl⟩ | ⟨rfl, rfl⟩
          · simpa using hnotut
          · simp only [decide_eq_true_eq]
            exact fun hp => hnotut ((pairMatchProp_symm a b c).mp hp)
        rw [hstorenil, List.nil_append]
        exact List.length_filter_le _ _
      · have hnil : ([mkDirectChat u t nid].filter
            (fun c => decide (pairMatchProp a b c))) = [] := by
          simp [hnew]
        rw [hnil, List.append_nil]
        exact huniq a b hab

/-- Witness for the amended C8: users 1 and 2 of the same company, empty
store: a fresh two-participant chat is created and uniqueness holds after. -/
theorem c8_witness :
    createDirectChat 1 2 [⟨1, 5⟩, ⟨2, 5⟩] 99 [] =
      .ok (mkDirectChat 1 2 99, [mkDirectChat 1 2 99]) ∧
    (mkDirectChat 1 2 99).participants.length = 2 ∧
    (mkDirectChat 1 2 99).participants.Nodup ∧
    uniqueDirect [mkDirectChat 1 2 99] := by
  have h := c8_amended_direct_chat_unique 1 2 [⟨1, 5⟩, ⟨2, 5⟩] 99 [] ⟨1, 5⟩ ⟨2, 5⟩
    (by decide) (by decide) (by decide) (by decide)
    (by intro a b hab; simp)
  have h2 := h.2.1 (by decide)
  exact ⟨h2.1, h2.2.1, h2.2.2, h.2.2 (mkDirectChat 1 2 99) [mkDirectChat 1 2 99] h2.1⟩

end WorkZen
